import Mathlib

/-!
Shallow embedding of the message-translation core of the
`matrix-appservice-rs` bridge library, together with theorems settling the
frozen claims about its specification.

The embedding covers:
* `src/mappingdict.rs` — the dual-keyed identity index (`MappingDict`);
* `src/convert.rs`, module `to_external` — the outbound anchor handling
  (`stringify_a_tag`);
* `src/convert.rs`, module `to_matrix` — the inbound regex build and the
  offset-corrected replacement loop (`build_regex`, `convert`);
* `src/matrix.rs` — `MatrixToItem` URL rendering and `mxc_to_url`.

Rust `HashMap`s are modelled as association lists whose `insert` overwrites
the existing entry for a key; `Vec` is modelled as `List`; text is modelled
as `List Char` (the source's offsets are byte offsets into UTF-8, but every
offset the code manipulates is guaranteed by the source to lie on a
codepoint boundary, so codepoint-granular offsets preserve the algebra of
the replacement loop).  A Rust `panic!`/`unwrap` failure is modelled as an
explicit `none`/`panic` result value.
-/

namespace MDict

/-- Model of `std::collections::HashMap` lookup on an association list. -/
def hmGet {K A : Type} [DecidableEq K] (k : K) : List (K × A) → Option A
  | [] => none
  | (k', v) :: rest => if k' = k then some v else hmGet k rest

/-- Model of `HashMap::remove`'s effect on the entries: the entry for `k`
(unique in a well-formed map; we erase every occurrence) disappears. -/
def hmErase {K A : Type} [DecidableEq K] (k : K) : List (K × A) → List (K × A)
  | [] => []
  | (k', v) :: rest => if k' = k then hmErase k rest else (k', v) :: hmErase k rest

/-- Model of `HashMap::insert`: the new binding replaces any existing binding
for the same key. -/
def hmInsert {K A : Type} [DecidableEq K] (k : K) (v : A) (m : List (K × A)) :
    List (K × A) :=
  (k, v) :: hmErase k m

/-- The `Mappable` trait of `src/mappingdict.rs`: a record type `V` exposing
a Matrix identifier and an external identifier. -/
structure Mappable (V M E : Type) where
  asMatrix : V → M
  asExternal : V → E

/-- `MappingId` of `src/mappingdict.rs`. -/
inductive MappingId (E M : Type)
  | external (e : E)
  | matrix (m : M)
deriving DecidableEq

/-- `MappingDict` of `src/mappingdict.rs`: the ordered item vector plus the
two identifier-to-index lookup maps. -/
structure MappingDict (V M E : Type) where
  items : List V
  externalToIndex : List (E × Nat)
  matrixToIndex : List (M × Nat)
deriving DecidableEq

variable {V M E : Type} [DecidableEq M] [DecidableEq E]

/-- `MappingDict::new`. -/
def MappingDict.new : MappingDict V M E :=
  { items := [], externalToIndex := [], matrixToIndex := [] }

/-- `MappingDict::insert`: registers both identifiers at index `items.len()`
(overwriting colliding lookup entries) and appends the item. -/
def MappingDict.insert (mp : Mappable V M E) (d : MappingDict V M E) (item : V) :
    MappingDict V M E :=
  let index := d.items.length
  { items := d.items ++ [item]
    matrixToIndex := hmInsert (mp.asMatrix item) index d.matrixToIndex
    externalToIndex := hmInsert (mp.asExternal item) index d.externalToIndex }

/-- The index consulted by `get`/`get_mut`/`remove` for an identifier. -/
def MappingDict.lookupIndex (d : MappingDict V M E) :
    MappingId E M → Option Nat
  | .matrix m => hmGet m d.matrixToIndex
  | .external e => hmGet e d.externalToIndex

/-- `MappingDict::get`: consult the matching lookup map, then index into the
item vector (`items.get(*i)`, which yields `None` out of bounds). -/
def MappingDict.get (d : MappingDict V M E)
    (identifier : MappingId E M) : Option V :=
  match d.lookupIndex identifier with
  | none => none
  | some i => d.items.get? i

/-- `MappingDict::has`. -/
def MappingDict.has (d : MappingDict V M E) (identifier : MappingId E M) : Bool :=
  (d.lookupIndex identifier).isSome

/-- `MappingDict::remove`: remove the identifier's entry from its lookup map;
if an index was found, `Vec::remove` the item at that index (which panics —
modelled as the outer `none` — when the index is out of bounds, and shifts
all later items left by one), then remove the removed item's other
identifier from the other lookup map. -/
def MappingDict.remove (mp : Mappable V M E) (d : MappingDict V M E)
    (identifier : MappingId E M) : Option (Option V × MappingDict V M E) :=
  match identifier with
  | .matrix m =>
    match hmGet m d.matrixToIndex with
    | none => some (none, { d with matrixToIndex := hmErase m d.matrixToIndex })
    | some i =>
      if h : i < d.items.length then
        let item := d.items.get ⟨i, h⟩
        some (some item,
          { items := d.items.eraseIdx i
            matrixToIndex := hmErase m d.matrixToIndex
            externalToIndex := hmErase (mp.asExternal item) d.externalToIndex })
      else none
  | .external e =>
    match hmGet e d.externalToIndex with
    | none => some (none, { d with externalToIndex := hmErase e d.externalToIndex })
    | some i =>
      if h : i < d.items.length then
        let item := d.items.get ⟨i, h⟩
        some (some item,
          { items := d.items.eraseIdx i
            externalToIndex := hmErase e d.externalToIndex
            matrixToIndex := hmErase (mp.asMatrix item) d.matrixToIndex })
      else none

/-- A concrete record type for counterexamples: a pair of a Matrix id and an
external id, both natural numbers. -/
def natMp : Mappable (Nat × Nat) Nat Nat :=
  { asMatrix := Prod.fst, asExternal := Prod.snd }

end MDict

/-- Text is modelled as a list of codepoints. -/
abbrev Text := List Char

/-- The codepoints of a string literal. -/
def str (s : String) : Text := s.data

namespace ToExternal

/-- Model of a parsed `ruma` `UserId` (`@localpart:server_name`). -/
structure UserIdM where
  localpart : Text
  serverName : Text
deriving DecidableEq

/-- Model of a parsed `ruma` `RoomAliasId` (`#alias:server_name`). -/
structure RoomAliasIdM where
  aliasName : Text
  serverName : Text
deriving DecidableEq

/-- Model of `ruma`'s `UserId::try_from` (an external crate): the identifier
must start with the `@` sigil and contain a `:` separating a localpart from
a non-empty server name.  (ruma validates more — allowed localpart
characters, server-name shape — so this model accepts a superset of ruma;
every identifier ruma accepts has this shape, and the concrete inputs used
in theorems below are invalid, resp. valid, under both.) -/
def parseUserId (s : Text) : Option UserIdM :=
  match s with
  | '@' :: rest =>
    let lp := rest.takeWhile (· != ':')
    match rest.dropWhile (· != ':') with
    | ':' :: server => if server.isEmpty then none else some ⟨lp, server⟩
    | _ => none
  | _ => none

/-- Model of `ruma`'s `RoomAliasId::try_from`, analogous to `parseUserId`
with the `#` sigil. -/
def parseRoomAlias (s : Text) : Option RoomAliasIdM :=
  match s with
  | '#' :: rest =>
    let a := rest.takeWhile (· != ':')
    match rest.dropWhile (· != ':') with
    | ':' :: server => if server.isEmpty then none else some ⟨a, server⟩
    | _ => none
  | _ => none

/-- The `Info` configuration of `to_external` (src/convert.rs): the two
resolver callbacks and, of the `element_handlers` table, the one fact
`stringify_a_tag` consults — whether a custom handler is registered for
tag `"a"`. -/
structure InfoE where
  userMapper : UserIdM → Option Text
  roomMapper : RoomAliasIdM → Option Text
  hasAHandler : Bool

/-- The fate of one anchor element under `stringify_a_tag`
(src/convert.rs:70-112), as observable `lol_html` rewriting actions:
* `handledByCustom` — the custom `"a"` handler was invoked and owns the
  element (the `Some(f)` arm of `normal`);
* `unwrapped` — `remove_and_keep_content` with no bracket wrapping;
* `wrapped href` — `remove_and_keep_content` plus `prepend "["` and
  `append "](href)"`;
* `replaced s` — `el.replace(&s)`, the whole anchor replaced verbatim;
* `panicked` — the `.unwrap()` on `UserId::try_from`/`RoomAliasId::try_from`
  panicked, aborting the conversion. -/
inductive AnchorResult
  | handledByCustom
  | unwrapped
  | wrapped (href : Text)
  | replaced (s : Text)
  | panicked
deriving DecidableEq

/-- The mention-URL start `"https://matrix.to/#/"` that
`href.strip_prefix` is called with in `stringify_a_tag`. -/
def mentionUrlStart : Text := str "https://matrix.to/#/"

/-- Model of `href.strip_prefix("https://matrix.to/#/")`. -/
def stripMentionUrl (href : Text) : Option Text :=
  if mentionUrlStart.isPrefixOf href then some (href.drop mentionUrlStart.length)
  else none

/-- The `normal` closure in `stringify_a_tag`: custom `"a"` handler if one
is registered, otherwise unwrap and (when an href was present) wrap the
kept text as `[text](href)`. -/
def normalATag (info : InfoE) (url : Option Text) : AnchorResult :=
  if info.hasAHandler then .handledByCustom
  else
    match url with
    | none => .unwrapped
    | some u => .wrapped u

/-- `stringify_a_tag` (src/convert.rs:70-112) as a function of the anchor's
`href` attribute.  The intermediate `s : Option (Option Text)` is `none`
when the source's `.unwrap()` on the identifier parse panics, otherwise
`some` of the resolver outcome `s` of the source. -/
def stringifyATag (info : InfoE) (href : Option Text) : AnchorResult :=
  match href with
  | none => normalATag info none
  | some href =>
    match stripMentionUrl href with
    | none => normalATag info (some href)
    | some mentioned =>
      let s : Option (Option Text) :=
        match mentioned.head? with
        | some '@' =>
          match parseUserId mentioned with
          | none => none
          | some uid => some (info.userMapper uid)
        | some '#' =>
          match parseRoomAlias mentioned with
          | none => none
          | some room => some (info.roomMapper room)
        | _ => some none
      match s with
      | none => .panicked
      | some (some t) => .replaced t
      | some none => normalATag info (some href)

/-- The full per-anchor pipeline of `convert` (src/convert.rs:114-147):
`lol_html` runs the handlers of every selector matching the element in
registration order, so an `<a>` element is processed first by the `"a"`
selector's handler (`stringify_a_tag`) and then by the `"*"` selector's
handler, which invokes the registered custom handler for tag `"a"` when
one exists and otherwise calls `remove_and_keep_content`.  A panic inside
`stringify_a_tag` unwinds the whole rewrite, so the `"*"` handler is never
reached in that case.  The result is the ordered list of actions applied
to the anchor. -/
def anchorPipeline (info : InfoE) (href : Option Text) : List AnchorResult :=
  match stringifyATag info href with
  | .panicked => [.panicked]
  | r => r :: (if info.hasAHandler then [.handledByCustom] else [.unwrapped])

end ToExternal
namespace ToExternal

/-- A concrete user resolver for witnesses: maps the user id `@u:d` to the
display string `TOM`. -/
def testUserMapper : UserIdM → Option Text :=
  fun u => if u = ⟨str "u", str "d"⟩ then some (str "TOM") else none

/-- A concrete room resolver for witnesses: maps the room alias `#r:d` to
the display string `ROOM`. -/
def testRoomMapper : RoomAliasIdM → Option Text :=
  fun r => if r = ⟨str "r", str "d"⟩ then some (str "ROOM") else none

end ToExternal

namespace ToMatrix

/-- `MatrixToItem` of src/matrix.rs (identifiers as their textual form). -/
inductive MatrixToItem
  | event (roomId eventId : Text)
  | user (userId : Text)
  | group (groupId : Text)
deriving DecidableEq

/-- The slug of `MatrixToItem::as_url` (src/matrix.rs:17-26):
`roomId/eventId` for events, the bare identifier for users and groups. -/
def MatrixToItem.slug : MatrixToItem → Text
  | .event r e => r ++ str "/" ++ e
  | .user u => u
  | .group g => g

/-- Modelled from the spec: `to_url_string` is called at src/convert.rs:315
but is not defined in the available source files.  `as_url` (src/matrix.rs)
renders `"https://matrix.to/#/{slug}"`, and the spec (§3, MentionReference)
says each item is convertible to a canonical mention URL of exactly that
form; `to_url_string` is that URL as a string. -/
def MatrixToItem.toUrlString (it : MatrixToItem) : Text :=
  str "https://matrix.to/#/" ++ it.slug

/-- The characters that `regex::escape` (the `escape` import at
src/convert.rs:277) prefixes with a backslash: the regex meta characters.
`\x7b`/`\x7d` are the curly braces. -/
def regexMetaChars : Text :=
  str "\\.+*?()|[]\x7b\x7d^$#&-~"

/-- Model of `regex::escape`: every meta character is prefixed with a
backslash, all other characters are copied. -/
def rescape : Text → Text
  | [] => []
  | c :: rest =>
    (if regexMetaChars.contains c then ['\\', c] else [c]) ++ rescape rest

/-- The alternation loop body of `build_regex` (src/convert.rs:289-295):
`|`-separate the escaped keys, in the order the map iterates them. -/
def alternation : List Text → Text
  | [] => []
  | [k] => rescape k
  | k :: k2 :: rest => rescape k ++ '|' :: alternation (k2 :: rest)

/-- `build_regex` (src/convert.rs:287-300) as the regex source string it
compiles, with the `HashMap` iteration order made explicit as the list
`keys`: Rust's `HashMap` iterates in an unspecified, per-instance-randomized
order, so the same key set can be presented in any order. -/
def buildRegexString (keys : List Text) : Text :=
  str "(?<=^|\\W)(" ++ alternation keys ++ str ")(?=$|\\W)"

/-- One regex match of the compiled pattern's capture group 1, as consumed
by `to_matrix::convert`: `m.start()`, `m.end()` (named `stop` here; offsets
into the *original* string) and the matched text. -/
structure RMatch where
  start : Nat
  stop : Nat
  name : Text
deriving DecidableEq

/-- `String::replace_range(start..stop, t)`. -/
def replaceRange (s : Text) (start stop : Nat) (t : Text) : Text :=
  s.take start ++ t ++ s.drop stop

/-- The replacement text built at src/convert.rs:316:
`format!("<a href=\"{}\">{}</a>", to, name)`. -/
def anchorOf (item : MatrixToItem) (name : Text) : Text :=
  str "<a href=\"" ++ item.toUrlString ++ str "\">" ++ name ++ str "</a>"

/-- The span of `s` from offset `a` (inclusive) to `b` (exclusive). -/
def sub (s : Text) (a b : Nat) : Text := (s.take b).drop a

/-- The loop of `to_matrix::convert` (src/convert.rs:302-327).  The
`captures_iter` output of the compiled pcre2 regex on the original string
is given as the list `ms` (the engine is an external crate); `delta` is the
cumulative net length change; the `info.map.get(name).unwrap()` panic is
modelled as `none`.  Each match's offsets are corrected by `delta`
(`(m.start() as i64 + delta) as usize`) before `replace_range` is applied,
and `delta` is advanced by the replacement's length minus the corrected
span's length, exactly as in the source. -/
def convertLoop (map : List (Text × MatrixToItem)) :
    List RMatch → Int → Text → Option Text
  | [], _, s => some s
  | m :: rest, delta, s =>
    match MDict.hmGet m.name map with
    | none => none
    | some item =>
      let rep := anchorOf item m.name
      let start := ((m.start : Int) + delta).toNat
      let stop := ((m.stop : Int) + delta).toNat
      convertLoop map rest (delta + (rep.length : Int) - ((stop - start : Nat) : Int))
        (replaceRange s start stop rep)

/-- `to_matrix::convert` (src/convert.rs:302-327): run the loop from
`delta = 0` on the input string. -/
def convert (map : List (Text × MatrixToItem)) (ms : List RMatch) (s : Text) :
    Option Text :=
  convertLoop map ms 0 s

/-- Characterization of `captures_iter` output on `s` starting at offset
`pos`: matches come in left-to-right order, are non-overlapping, lie within
the string, and each match's text is exactly the span it reports.  These
are guarantees of the regex engine on the original string. -/
def chainB (s : Text) : Nat → List RMatch → Bool
  | _, [] => true
  | pos, m :: rest =>
    decide (pos ≤ m.start) && decide (m.start ≤ m.stop)
      && decide (m.stop ≤ s.length) && decide (m.name = sub s m.start m.stop)
      && chainB s m.stop rest

/-- The output described by the spec (§4.3 Matching & rewrite), written
from the spec's words for comparison with `convert`: walk the matches left
to right; keep the gap before each match unchanged, render the match as
`<a href="URL">matchedText</a>`, and keep the tail after the last match. -/
def renderedFromSpec (map : List (Text × MatrixToItem)) (s : Text) :
    Nat → List RMatch → Option Text
  | pos, [] => some (s.drop pos)
  | pos, m :: rest =>
    match MDict.hmGet m.name map with
    | none => none
    | some item =>
      match renderedFromSpec map s m.stop rest with
      | none => none
      | some tail => some (sub s pos m.start ++ anchorOf item m.name ++ tail)

end ToMatrix

namespace MatrixUri

/-- Model of an `http::Uri` as `mxc_to_url` observes one: its scheme (absent
for scheme-less URIs such as `"/foo"`), its host, and its path. -/
structure UriM where
  scheme : Option Text
  host : Option Text
  path : Text
deriving DecidableEq

/-- `MxcConversionError` of src/matrix.rs. -/
inductive MxcConversionError
  | nonMxc
  | invalidMxc
  | uriParseError
deriving DecidableEq

/-- The outcome of `mxc_to_url`: a typed error, a parsed URL, or a panic
(the `.unwrap()` on `scheme_str()`). -/
inductive MxcResult
  | panicked
  | err (e : MxcConversionError)
  | ok (u : UriM)
deriving DecidableEq

/-- `mxc_to_url` (src/matrix.rs:48-64).  `parse` embeds `str::parse::<Uri>`
of the `http` crate (an external dependency), `homeserverUrl` is the
`Display` rendering of the homeserver base URL.  `scheme_str().unwrap()`
panics when the URI has no scheme; `&path[1..]` is modelled by `drop 1`
(on the reachable inputs — host present — `http::Uri` guarantees a
non-empty path, so the byte-slice never panics). -/
def mxcToUrl (parse : Text → Option UriM) (homeserverUrl : Text)
    (mxcUri : UriM) : MxcResult :=
  match mxcUri.scheme with
  | none => .panicked
  | some sch =>
    if sch ≠ str "mxc" then .err .nonMxc
    else
      match mxcUri.host with
      | none => .err .invalidMxc
      | some serverName =>
        let id := mxcUri.path.drop 1
        match parse (homeserverUrl ++ str "_matrix/media/r0/download/"
            ++ serverName ++ str "/" ++ id) with
        | none => .err .uriParseError
        | some u => .ok u

end MatrixUri

namespace MDict

variable {K A : Type} [DecidableEq K]

lemma hmGet_hmErase (k k' : K) (m : List (K × A)) :
    hmGet k (hmErase k' m) = if k' = k then none else hmGet k m := by
  induction m with
  | nil => simp [hmErase, hmGet]
  | cons p rest ih =>
    obtain ⟨k₀, v₀⟩ := p
    simp only [hmErase, hmGet]
    split_ifs with h1 h2 <;> simp_all [hmGet]

lemma hmGet_hmErase_self (k : K) (m : List (K × A)) :
    hmGet k (hmErase k m) = none := by
  simp [hmGet_hmErase]

lemma hmErase_of_get_none (k : K) (m : List (K × A)) (h : hmGet k m = none) :
    hmErase k m = m := by
  induction m with
  | nil => rfl
  | cons p rest ih =>
    obtain ⟨k₀, v₀⟩ := p
    simp only [hmGet] at h
    by_cases h0 : k₀ = k
    · simp [h0] at h
    · simp only [hmErase, if_neg h0]
      simp only [if_neg h0] at h
      rw [ih h]

lemma hmGet_hmInsert (k k' : K) (v : A) (m : List (K × A)) :
    hmGet k (hmInsert k' v m) = if k' = k then some v else hmGet k m := by
  simp only [hmInsert, hmGet]
  split_ifs with h
  · rfl
  · exact (hmGet_hmErase k k' m).trans (if_neg h)

end MDict

open MDict ToExternal ToMatrix MatrixUri

/-- C1: the claim states that after any insert/remove sequence without
identifier collisions, every record still present is reachable through both
of its identifiers; in particular after removing a record that is not the
most recently inserted one, every remaining record is still returned by
`get` on either identifier.  This is false: `Vec::remove` shifts the later
items one slot left, but the two lookup maps keep the old indices.  With
records `(1,11), (2,22)` inserted in order, removing `(1,11)` by its Matrix
id leaves `(2,22)` live in the item vector while `get` on either of its
identifiers returns `none`; with a third record `(3,33)`, `get` on the
Matrix id of `(2,22)` even returns the wrong record `(3,33)`. -/
theorem c1_remove_shift_makes_live_records_unreachable :
    MappingDict.remove natMp
        (MappingDict.insert natMp
          (MappingDict.insert natMp MappingDict.new (1, 11)) (2, 22))
        (.matrix 1)
      = some (some (1, 11),
          { items := [(2, 22)], externalToIndex := [(22, 1)],
            matrixToIndex := [(2, 1)] })
    ∧ MappingDict.get
        ({ items := [(2, 22)], externalToIndex := [(22, 1)],
           matrixToIndex := [(2, 1)] } : MappingDict (Nat × Nat) Nat Nat)
        (.matrix 2) = none
    ∧ MappingDict.get
        ({ items := [(2, 22)], externalToIndex := [(22, 1)],
           matrixToIndex := [(2, 1)] } : MappingDict (Nat × Nat) Nat Nat)
        (.external 22) = none
    ∧ MappingDict.remove natMp
        (MappingDict.insert natMp (MappingDict.insert natMp
          (MappingDict.insert natMp MappingDict.new (1, 11)) (2, 22)) (3, 33))
        (.matrix 1)
      = some (some (1, 11),
          { items := [(2, 22), (3, 33)],
            externalToIndex := [(33, 2), (22, 1)],
            matrixToIndex := [(3, 2), (2, 1)] })
    ∧ MappingDict.get
        ({ items := [(2, 22), (3, 33)],
           externalToIndex := [(33, 2), (22, 1)],
           matrixToIndex := [(3, 2), (2, 1)] } : MappingDict (Nat × Nat) Nat Nat)
        (.matrix 2) = some (3, 33) := by
  decide

/-- C9: a lookup miss is an absent value, not an error: when the identifier
is absent from its lookup map, `get` returns `none` and `remove` returns
`none` leaving the dict completely unchanged (same records, same lookup
entries, same order); when the identifier is present (with its stored index
in bounds), `remove` returns the record at that index, deletes it from the
item vector, and deletes both of its lookup entries. -/
theorem c9_get_remove_miss_and_hit {V M E : Type} [DecidableEq M] [DecidableEq E]
    (mp : Mappable V M E) (d : MappingDict V M E) (idf : MappingId E M) :
    (d.lookupIndex idf = none →
      d.get idf = none ∧ d.remove mp idf = some (none, d)) ∧
    (∀ i (h : i < d.items.length), d.lookupIndex idf = some i →
      ∃ d', d.remove mp idf = some (some (d.items.get ⟨i, h⟩), d') ∧
        d'.items = d.items.eraseIdx i ∧
        d'.lookupIndex idf = none ∧
        (∀ m, idf = .matrix m →
          hmGet (mp.asExternal (d.items.get ⟨i, h⟩)) d'.externalToIndex = none) ∧
        (∀ e, idf = .external e →
          hmGet (mp.asMatrix (d.items.get ⟨i, h⟩)) d'.matrixToIndex = none)) := by
  constructor
  · intro h0
    cases idf with
    | matrix m =>
      simp only [MappingDict.lookupIndex] at h0
      constructor
      · simp [MappingDict.get, MappingDict.lookupIndex, h0]
      · simp [MappingDict.remove, h0, hmErase_of_get_none m _ h0]
    | external e =>
      simp only [MappingDict.lookupIndex] at h0
      constructor
      · simp [MappingDict.get, MappingDict.lookupIndex, h0]
      · simp [MappingDict.remove, h0, hmErase_of_get_none e _ h0]
  · intro i h h0
    cases idf with
    | matrix m =>
      simp only [MappingDict.lookupIndex] at h0
      refine ⟨{ items := d.items.eraseIdx i,
                matrixToIndex := hmErase m d.matrixToIndex,
                externalToIndex :=
                  hmErase (mp.asExternal (d.items.get ⟨i, h⟩)) d.externalToIndex },
              ?_, rfl, ?_, ?_, ?_⟩
      · simp [MappingDict.remove, h0, h]
      · simp [MappingDict.lookupIndex, hmGet_hmErase_self]
      · intro m' hm'
        simp [hmGet_hmErase_self]
      · intro e he
        exact absurd he (by simp)
    | external e =>
      simp only [MappingDict.lookupIndex] at h0
      refine ⟨{ items := d.items.eraseIdx i,
                externalToIndex := hmErase e d.externalToIndex,
                matrixToIndex :=
                  hmErase (mp.asMatrix (d.items.get ⟨i, h⟩)) d.matrixToIndex },
              ?_, rfl, ?_, ?_, ?_⟩
      · simp [MappingDict.remove, h0, h]
      · simp [MappingDict.lookupIndex, hmGet_hmErase_self]
      · intro m' hm'
        exact absurd hm' (by simp)
      · intro e' he'
        simp [hmGet_hmErase_self]

/-- Witness for `c9_get_remove_miss_and_hit`: on the dict holding the single
record `(1,11)`, the absent identifier `Matrix 5` misses (get `none`, remove
`none` and the dict unchanged), and removing the present identifier
`Matrix 1` yields the record and deletes it together with both of its
lookup entries. -/
theorem c9_get_remove_miss_and_hit_witness :
    (MappingDict.get
        ({ items := [(1, 11)], externalToIndex := [(11, 0)],
           matrixToIndex := [(1, 0)] } : MappingDict (Nat × Nat) Nat Nat)
        (.matrix 5) = none
      ∧ MappingDict.remove natMp
          { items := [(1, 11)], externalToIndex := [(11, 0)],
            matrixToIndex := [(1, 0)] }
          (.matrix 5)
        = some (none,
            { items := [(1, 11)], externalToIndex := [(11, 0)],
              matrixToIndex := [(1, 0)] }))
    ∧ ∃ d' : MappingDict (Nat × Nat) Nat Nat,
        MappingDict.remove natMp
            { items := [(1, 11)], externalToIndex := [(11, 0)],
              matrixToIndex := [(1, 0)] }
            (.matrix 1)
          = some (some (1, 11), d')
        ∧ d'.items = [] ∧ d'.lookupIndex (.matrix 1) = none
        ∧ hmGet 11 d'.externalToIndex = none := by
  constructor
  · exact (c9_get_remove_miss_and_hit natMp _ (.matrix 5)).1 (by decide)
  · obtain ⟨d', h1, h2, h3, h4, -⟩ :=
      (c9_get_remove_miss_and_hit natMp
        { items := [(1, 11)], externalToIndex := [(11, 0)],
          matrixToIndex := [(1, 0)] }
        (.matrix 1)).2 0 (by decide) (by decide)
    exact ⟨d', h1, by rw [h2]; rfl, h3, h4 1 rfl⟩

/-- C4: inserting a record `N` whose external identifier collides with a
record `R` already in the dict (but whose Matrix identifier is fresh)
overwrites only the colliding external lookup entry, which now points at
the new index: `R` still occupies its slot `p` in the item vector (so it is
still produced by iteration), the Matrix lookup map still maps `R`'s Matrix
identifier to `p`, and `get` by the shared external identifier now returns
`N` — leaving `R` stale and only partially reachable.  Symmetrically for a
Matrix-identifier collision. -/
theorem c4_insert_collision_leaves_stale_record
    {V M E : Type} [DecidableEq M] [DecidableEq E]
    (mp : Mappable V M E) (d : MappingDict V M E) (R : V) (p : Nat) (N : V)
    (hp : d.items.get? p = some R)
    (hm : hmGet (mp.asMatrix R) d.matrixToIndex = some p)
    (he : hmGet (mp.asExternal R) d.externalToIndex = some p) :
    (mp.asExternal N = mp.asExternal R → mp.asMatrix N ≠ mp.asMatrix R →
      (d.insert mp N).items.get? p = some R
      ∧ R ∈ (d.insert mp N).items
      ∧ hmGet (mp.asMatrix R) (d.insert mp N).matrixToIndex = some p
      ∧ hmGet (mp.asExternal R) (d.insert mp N).externalToIndex
          = some d.items.length
      ∧ (d.insert mp N).get (.external (mp.asExternal R)) = some N) ∧
    (mp.asMatrix N = mp.asMatrix R → mp.asExternal N ≠ mp.asExternal R →
      (d.insert mp N).items.get? p = some R
      ∧ R ∈ (d.insert mp N).items
      ∧ hmGet (mp.asExternal R) (d.insert mp N).externalToIndex = some p
      ∧ hmGet (mp.asMatrix R) (d.insert mp N).matrixToIndex
          = some d.items.length
      ∧ (d.insert mp N).get (.matrix (mp.asMatrix R)) = some N) := by
  obtain ⟨hlt, -⟩ := List.get?_eq_some.mp hp
  constructor
  · intro hE hM
    refine ⟨?_, ?_, ?_, ?_, ?_⟩
    · simp only [MappingDict.insert]
      rw [List.get?_append hlt]
      exact hp
    · exact List.mem_append_left _ (List.get?_mem hp)
    · simp only [MappingDict.insert]
      rw [hmGet_hmInsert, if_neg hM]
      exact hm
    · simp only [MappingDict.insert]
      rw [hmGet_hmInsert, if_pos hE]
    · simp only [MappingDict.get, MappingDict.lookupIndex, MappingDict.insert]
      rw [hmGet_hmInsert, if_pos hE]
      simp [List.get?_concat_length]
  · intro hM hE
    refine ⟨?_, ?_, ?_, ?_, ?_⟩
    · simp only [MappingDict.insert]
      rw [List.get?_append hlt]
      exact hp
    · exact List.mem_append_left _ (List.get?_mem hp)
    · simp only [MappingDict.insert]
      rw [hmGet_hmInsert, if_neg hE]
      exact he
    · simp only [MappingDict.insert]
      rw [hmGet_hmInsert, if_pos hM]
    · simp only [MappingDict.get, MappingDict.lookupIndex, MappingDict.insert]
      rw [hmGet_hmInsert, if_pos hM]
      simp [List.get?_concat_length]

/-- Witness for `c4_insert_collision_leaves_stale_record`: on the dict
holding the single record `(1,11)`, inserting `(2,11)` (external id `11`
collides, Matrix id `2` is fresh) leaves `(1,11)` in slot `0` and in the
Matrix lookup map, while `get` by external id `11` now returns `(2,11)`. -/
theorem c4_insert_collision_leaves_stale_record_witness :
    (MappingDict.insert natMp
        { items := [(1, 11)], externalToIndex := [(11, 0)],
          matrixToIndex := [(1, 0)] } (2, 11)).items.get? 0 = some (1, 11)
    ∧ (1, 11) ∈ (MappingDict.insert natMp
        { items := [(1, 11)], externalToIndex := [(11, 0)],
          matrixToIndex := [(1, 0)] } (2, 11)).items
    ∧ hmGet 1 (MappingDict.insert natMp
        { items := [(1, 11)], externalToIndex := [(11, 0)],
          matrixToIndex := [(1, 0)] } (2, 11)).matrixToIndex = some 0
    ∧ hmGet 11 (MappingDict.insert natMp
        { items := [(1, 11)], externalToIndex := [(11, 0)],
          matrixToIndex := [(1, 0)] } (2, 11)).externalToIndex = some 1
    ∧ (MappingDict.insert natMp
        { items := [(1, 11)], externalToIndex := [(11, 0)],
          matrixToIndex := [(1, 0)] } (2, 11)).get (.external 11)
        = some (2, 11) :=
  (c4_insert_collision_leaves_stale_record natMp
    { items := [(1, 11)], externalToIndex := [(11, 0)], matrixToIndex := [(1, 0)] }
    (1, 11) 0 (2, 11) (by decide) (by decide) (by decide)).1 (by decide) (by decide)

namespace ToExternal

lemma stringifyATag_no_href (info : InfoE) :
    stringifyATag info none = normalATag info none := rfl

lemma stringifyATag_no_mention_url (info : InfoE) (href : Text)
    (h : stripMentionUrl href = none) :
    stringifyATag info (some href) = normalATag info (some href) := by
  simp [stringifyATag, h]

lemma stringifyATag_user_resolved (info : InfoE) (href mentioned : Text)
    (uid : UserIdM) (t : Text)
    (h1 : stripMentionUrl href = some mentioned)
    (h2 : mentioned.head? = some '@')
    (h3 : parseUserId mentioned = some uid)
    (h4 : info.userMapper uid = some t) :
    stringifyATag info (some href) = .replaced t := by
  simp [stringifyATag, h1, h2, h3, h4]

lemma stringifyATag_user_unresolved (info : InfoE) (href mentioned : Text)
    (uid : UserIdM)
    (h1 : stripMentionUrl href = some mentioned)
    (h2 : mentioned.head? = some '@')
    (h3 : parseUserId mentioned = some uid)
    (h4 : info.userMapper uid = none) :
    stringifyATag info (some href) = normalATag info (some href) := by
  simp [stringifyATag, h1, h2, h3, h4]

lemma stringifyATag_user_invalid (info : InfoE) (href mentioned : Text)
    (h1 : stripMentionUrl href = some mentioned)
    (h2 : mentioned.head? = some '@')
    (h3 : parseUserId mentioned = none) :
    stringifyATag info (some href) = .panicked := by
  simp [stringifyATag, h1, h2, h3]

lemma stringifyATag_room_resolved (info : InfoE) (href mentioned : Text)
    (room : RoomAliasIdM) (t : Text)
    (h1 : stripMentionUrl href = some mentioned)
    (h2 : mentioned.head? = some '#')
    (h3 : parseRoomAlias mentioned = some room)
    (h4 : info.roomMapper room = some t) :
    stringifyATag info (some href) = .replaced t := by
  simp [stringifyATag, h1, h2, h3, h4]

lemma stringifyATag_room_unresolved (info : InfoE) (href mentioned : Text)
    (room : RoomAliasIdM)
    (h1 : stripMentionUrl href = some mentioned)
    (h2 : mentioned.head? = some '#')
    (h3 : parseRoomAlias mentioned = some room)
    (h4 : info.roomMapper room = none) :
    stringifyATag info (some href) = normalATag info (some href) := by
  simp [stringifyATag, h1, h2, h3, h4]

lemma stringifyATag_room_invalid (info : InfoE) (href mentioned : Text)
    (h1 : stripMentionUrl href = some mentioned)
    (h2 : mentioned.head? = some '#')
    (h3 : parseRoomAlias mentioned = none) :
    stringifyATag info (some href) = .panicked := by
  simp [stringifyATag, h1, h2, h3]

lemma stringifyATag_other_sigil (info : InfoE) (href mentioned : Text)
    (c : Char)
    (h1 : stripMentionUrl href = some mentioned)
    (h2 : mentioned.head? = some c) (hc1 : c ≠ '@') (hc2 : c ≠ '#') :
    stringifyATag info (some href) = normalATag info (some href) := by
  simp only [stringifyATag, h1, h2]
  split
  · rename_i heq
    split at heq <;> simp_all
  · rename_i t heq
    split at heq <;> simp_all
  · rfl

lemma stringifyATag_empty_mention (info : InfoE) (href mentioned : Text)
    (h1 : stripMentionUrl href = some mentioned)
    (h2 : mentioned.head? = none) :
    stringifyATag info (some href) = normalATag info (some href) := by
  simp [stringifyATag, h1, h2]

end ToExternal

/-- C2: the claim states that the outbound converter never panics and that
an anchor whose href has the mention-URL start and an `@`/`#` sigil but an
invalid identifier payload falls through to default anchor handling.  This
is false: `stringify_a_tag` calls `.unwrap()` on the result of
`UserId::try_from` / `RoomAliasId::try_from`, so hrefs
`https://matrix.to/#/@a` and `https://matrix.to/#/#a` (sigil present,
payload lacking the required `:server` part) panic and abort the whole
conversion instead of being wrapped as default anchors. -/
theorem c2_malformed_mention_payload_panics :
    stringifyATag ⟨fun _ => none, fun _ => none, false⟩
        (some (str "https://matrix.to/#/@a")) = .panicked
    ∧ stringifyATag ⟨fun _ => none, fun _ => none, false⟩
        (some (str "https://matrix.to/#/@a"))
      ≠ .wrapped (str "https://matrix.to/#/@a")
    ∧ stringifyATag ⟨fun _ => none, fun _ => none, false⟩
        (some (str "https://matrix.to/#/#a")) = .panicked := by
  decide

/-- C5: with no custom anchor handler registered, `stringify_a_tag` behaves
as specified: a mention-grammar href whose sigil-dispatched resolver
(`@` → user resolver, `#` → room resolver) yields a display string replaces
the whole anchor verbatim by that string; when the resolver yields nothing,
or the href does not match the mention grammar (no mention-URL start, a
non-`@`/`#` sigil, or an empty payload), the tag is removed, the text kept,
and wrapped as `[text](href)`; and with no href at all the anchor is merely
unwrapped. -/
theorem c5_default_anchor_behavior (info : InfoE)
    (hA : info.hasAHandler = false) :
    (∀ href mentioned uid t, stripMentionUrl href = some mentioned →
      mentioned.head? = some '@' → parseUserId mentioned = some uid →
      info.userMapper uid = some t →
      stringifyATag info (some href) = .replaced t)
    ∧ (∀ href mentioned room t, stripMentionUrl href = some mentioned →
      mentioned.head? = some '#' → parseRoomAlias mentioned = some room →
      info.roomMapper room = some t →
      stringifyATag info (some href) = .replaced t)
    ∧ (∀ href mentioned uid, stripMentionUrl href = some mentioned →
      mentioned.head? = some '@' → parseUserId mentioned = some uid →
      info.userMapper uid = none →
      stringifyATag info (some href) = .wrapped href)
    ∧ (∀ href mentioned room, stripMentionUrl href = some mentioned →
      mentioned.head? = some '#' → parseRoomAlias mentioned = some room →
      info.roomMapper room = none →
      stringifyATag info (some href) = .wrapped href)
    ∧ (∀ href mentioned c, stripMentionUrl href = some mentioned →
      mentioned.head? = some c → c ≠ '@' → c ≠ '#' →
      stringifyATag info (some href) = .wrapped href)
    ∧ (∀ href mentioned, stripMentionUrl href = some mentioned →
      mentioned.head? = none →
      stringifyATag info (some href) = .wrapped href)
    ∧ (∀ href, stripMentionUrl href = none →
      stringifyATag info (some href) = .wrapped href)
    ∧ stringifyATag info none = .unwrapped := by
  refine ⟨fun href m uid t h1 h2 h3 h4 =>
      stringifyATag_user_resolved info href m uid t h1 h2 h3 h4,
    fun href m room t h1 h2 h3 h4 =>
      stringifyATag_room_resolved info href m room t h1 h2 h3 h4,
    fun href m uid h1 h2 h3 h4 => ?_, fun href m room h1 h2 h3 h4 => ?_,
    fun href m c h1 h2 hc1 hc2 => ?_, fun href m h1 h2 => ?_,
    fun href h1 => ?_, ?_⟩
  · rw [stringifyATag_user_unresolved info href m uid h1 h2 h3 h4,
      normalATag, if_neg (by simp [hA])]
  · rw [stringifyATag_room_unresolved info href m room h1 h2 h3 h4,
      normalATag, if_neg (by simp [hA])]
  · rw [stringifyATag_other_sigil info href m c h1 h2 hc1 hc2,
      normalATag, if_neg (by simp [hA])]
  · rw [stringifyATag_empty_mention info href m h1 h2,
      normalATag, if_neg (by simp [hA])]
  · rw [stringifyATag_no_mention_url info href h1,
      normalATag, if_neg (by simp [hA])]
  · rw [stringifyATag_no_href info, normalATag, if_neg (by simp [hA])]

/-- Witness for `c5_default_anchor_behavior`: with the test resolvers and no
custom anchor handler, a resolving user mention replaces the anchor by
`TOM`, a resolving room mention by `ROOM`, an unresolved user mention and a
plain link wrap as `[text](href)`, and an anchor without href unwraps. -/
theorem c5_default_anchor_behavior_witness :
    stringifyATag ⟨testUserMapper, testRoomMapper, false⟩
        (some (str "https://matrix.to/#/@u:d")) = .replaced (str "TOM")
    ∧ stringifyATag ⟨testUserMapper, testRoomMapper, false⟩
        (some (str "https://matrix.to/#/#r:d")) = .replaced (str "ROOM")
    ∧ stringifyATag ⟨testUserMapper, testRoomMapper, false⟩
        (some (str "https://matrix.to/#/@x:d"))
      = .wrapped (str "https://matrix.to/#/@x:d")
    ∧ stringifyATag ⟨testUserMapper, testRoomMapper, false⟩
        (some (str "google.nl")) = .wrapped (str "google.nl")
    ∧ stringifyATag ⟨testUserMapper, testRoomMapper, false⟩ none
      = .unwrapped := by
  have h := c5_default_anchor_behavior ⟨testUserMapper, testRoomMapper, false⟩ rfl
  exact ⟨h.1 _ (str "@u:d") ⟨str "u", str "d"⟩ _ (by decide) (by decide)
      (by decide) (by decide),
    h.2.1 _ (str "#r:d") ⟨str "r", str "d"⟩ _ (by decide) (by decide)
      (by decide) (by decide),
    h.2.2.1 _ (str "@x:d") ⟨str "x", str "d"⟩ (by decide) (by decide)
      (by decide) (by decide),
    h.2.2.2.2.2.2.1 _ (by decide),
    h.2.2.2.2.2.2.2⟩

/-- C6 counterexample: the claim states that with a custom `"a"` handler
registered, the handler governs every anchor unconditionally and mention
resolution is skipped — the user/room resolvers are never consulted.
False: the `"a"`-selector handler (`stringify_a_tag`) runs before the
`"*"`-selector dispatch and consults the resolver; with the test resolvers
and a custom `"a"` handler, the anchor with href
`https://matrix.to/#/@u:d` is first replaced verbatim by the resolver's
string `TOM`, and only then is the custom handler invoked on the element —
the resolution step is present in the applied actions. -/
theorem c6_resolvers_consulted_despite_custom_handler :
    anchorPipeline ⟨testUserMapper, testRoomMapper, true⟩
        (some (str "https://matrix.to/#/@u:d"))
      = [.replaced (str "TOM"), .handledByCustom]
    ∧ AnchorResult.replaced (str "TOM")
        ∈ anchorPipeline ⟨testUserMapper, testRoomMapper, true⟩
            (some (str "https://matrix.to/#/@u:d")) := by
  decide

/-- C6 amended: with a custom `"a"` handler registered, the wildcard
dispatch does invoke it on every non-panicking anchor — it is always the
last handler to act — but mention resolution is not skipped: when the href
matches the mention grammar and the sigil-dispatched resolver returns a
display string, the resolvers are consulted, the anchor is first replaced
verbatim by that string, and the custom handler is then invoked on the
element; on fall-through anchors (no href, href without the mention-URL
start, or a resolver returning nothing) the custom handler is invoked
twice — once by the anchor handler's fallback and once by the wildcard
dispatch — with no default unwrapping or wrapping. -/
theorem c6_custom_handler_always_invoked_resolution_not_skipped
    (info : InfoE) (hA : info.hasAHandler = true) :
    (∀ href, stringifyATag info href ≠ .panicked →
      anchorPipeline info href = [stringifyATag info href, .handledByCustom]
      ∧ .handledByCustom ∈ anchorPipeline info href)
    ∧ (∀ href mentioned uid t, stripMentionUrl href = some mentioned →
      mentioned.head? = some '@' → parseUserId mentioned = some uid →
      info.userMapper uid = some t →
      anchorPipeline info (some href) = [.replaced t, .handledByCustom])
    ∧ (∀ href mentioned room t, stripMentionUrl href = some mentioned →
      mentioned.head? = some '#' → parseRoomAlias mentioned = some room →
      info.roomMapper room = some t →
      anchorPipeline info (some href) = [.replaced t, .handledByCustom])
    ∧ anchorPipeline info none = [.handledByCustom, .handledByCustom]
    ∧ (∀ href, stripMentionUrl href = none →
      anchorPipeline info (some href) = [.handledByCustom, .handledByCustom])
    ∧ (∀ href mentioned uid, stripMentionUrl href = some mentioned →
      mentioned.head? = some '@' → parseUserId mentioned = some uid →
      info.userMapper uid = none →
      anchorPipeline info (some href) = [.handledByCustom, .handledByCustom])
    ∧ (∀ href mentioned room, stripMentionUrl href = some mentioned →
      mentioned.head? = some '#' → parseRoomAlias mentioned = some room →
      info.roomMapper room = none →
      anchorPipeline info (some href) = [.handledByCustom, .handledByCustom]) := by
  refine ⟨fun href hnp => ?_, fun href m uid t h1 h2 h3 h4 => ?_,
    fun href m room t h1 h2 h3 h4 => ?_, ?_, fun href h1 => ?_,
    fun href m uid h1 h2 h3 h4 => ?_, fun href m room h1 h2 h3 h4 => ?_⟩
  · cases h : stringifyATag info href <;> simp_all [anchorPipeline, hA]
  · rw [anchorPipeline,
      stringifyATag_user_resolved info href m uid t h1 h2 h3 h4]
    simp [hA]
  · rw [anchorPipeline,
      stringifyATag_room_resolved info href m room t h1 h2 h3 h4]
    simp [hA]
  · have hr : stringifyATag info none = .handledByCustom := by
      rw [stringifyATag_no_href info, normalATag, if_pos (by simp [hA])]
    rw [anchorPipeline, hr]
    simp [hA]
  · have hr : stringifyATag info (some href) = .handledByCustom := by
      rw [stringifyATag_no_mention_url info href h1,
        normalATag, if_pos (by simp [hA])]
    rw [anchorPipeline, hr]
    simp [hA]
  · have hr : stringifyATag info (some href) = .handledByCustom := by
      rw [stringifyATag_user_unresolved info href m uid h1 h2 h3 h4,
        normalATag, if_pos (by simp [hA])]
    rw [anchorPipeline, hr]
    simp [hA]
  · have hr : stringifyATag info (some href) = .handledByCustom := by
      rw [stringifyATag_room_unresolved info href m room h1 h2 h3 h4,
        normalATag, if_pos (by simp [hA])]
    rw [anchorPipeline, hr]
    simp [hA]

/-- Witness for `c6_custom_handler_always_invoked_resolution_not_skipped`:
with a custom `"a"` handler and the test resolvers, an anchor without
href, a plain link and an unresolved user mention are handed to the custom
handler twice with no default wrapping, while the resolving room mention
`#r:d` is first replaced by `ROOM` and then handed to the custom
handler. -/
theorem c6_custom_handler_always_invoked_witness :
    anchorPipeline ⟨testUserMapper, testRoomMapper, true⟩ none
      = [.handledByCustom, .handledByCustom]
    ∧ anchorPipeline ⟨testUserMapper, testRoomMapper, true⟩
        (some (str "google.nl")) = [.handledByCustom, .handledByCustom]
    ∧ anchorPipeline ⟨testUserMapper, testRoomMapper, true⟩
        (some (str "https://matrix.to/#/@x:d"))
      = [.handledByCustom, .handledByCustom]
    ∧ anchorPipeline ⟨testUserMapper, testRoomMapper, true⟩
        (some (str "https://matrix.to/#/#r:d"))
      = [.replaced (str "ROOM"), .handledByCustom] := by
  have h := c6_custom_handler_always_invoked_resolution_not_skipped
    ⟨testUserMapper, testRoomMapper, true⟩ rfl
  exact ⟨h.2.2.2.1, h.2.2.2.2.1 _ (by decide),
    h.2.2.2.2.2.1 _ (str "@x:d") ⟨str "x", str "d"⟩ (by decide) (by decide)
      (by decide) (by decide),
    h.2.2.1 _ (str "#r:d") ⟨str "r", str "d"⟩ _ (by decide) (by decide)
      (by decide) (by decide)⟩

namespace ToMatrix

lemma sub_eq_take_drop (s : Text) (a b : Nat) :
    sub s a b = (s.drop a).take (b - a) := by
  simp [sub, List.drop_take]

lemma length_sub (s : Text) (a b : Nat) (hb : b ≤ s.length) (hab : a ≤ b) :
    (sub s a b).length = b - a := by
  simp only [sub, List.length_drop, List.length_take]
  omega

lemma convertLoop_rendered (map : List (Text × MatrixToItem)) (s : Text) :
    ∀ (ms : List RMatch) (pos : Nat) (P : Text),
      chainB s pos ms = true →
      convertLoop map ms ((P.length : Int) - (pos : Int)) (P ++ s.drop pos)
        = (renderedFromSpec map s pos ms).map (fun t => P ++ t) := by
  intro ms
  induction ms with
  | nil =>
    intro pos P h
    simp [convertLoop, renderedFromSpec]
  | cons m rest ih =>
    intro pos P h
    simp only [chainB, Bool.and_eq_true, decide_eq_true_eq] at h
    obtain ⟨⟨⟨⟨h1, h2⟩, h3⟩, h4⟩, h5⟩ := h
    have hms : m.start ≤ s.length := le_trans h2 h3
    cases hget : MDict.hmGet m.name map with
    | none => simp [convertLoop, renderedFromSpec, hget]
    | some item =>
      simp only [convertLoop, renderedFromSpec, hget]
      have hstart : ((m.start : Int) + ((P.length : Int) - (pos : Int))).toNat
          = P.length + (m.start - pos) := by omega
      have hstop : ((m.stop : Int) + ((P.length : Int) - (pos : Int))).toNat
          = P.length + (m.stop - pos) := by omega
      rw [hstart, hstop]
      have hrepl : replaceRange (P ++ s.drop pos) (P.length + (m.start - pos))
          (P.length + (m.stop - pos)) (anchorOf item m.name)
          = (P ++ sub s pos m.start ++ anchorOf item m.name) ++ s.drop m.stop := by
        simp only [replaceRange, List.take_append, List.drop_append,
          List.drop_drop, sub_eq_take_drop]
        have hps : pos + (m.stop - pos) = m.stop := by omega
        rw [hps]
      have hlsub : (sub s pos m.start).length = m.start - pos :=
        length_sub s pos m.start hms h1
      have hdelta : (P.length : Int) - (pos : Int)
            + ((anchorOf item m.name).length : Int)
            - (((P.length + (m.stop - pos)) - (P.length + (m.start - pos)) : Nat) : Int)
          = (((P ++ sub s pos m.start ++ anchorOf item m.name).length : Int)
              - (m.stop : Int)) := by
        simp only [List.length_append, hlsub]
        omega
      rw [hrepl, hdelta,
        ih m.stop (P ++ sub s pos m.start ++ anchorOf item m.name) h5]
      cases hrend : renderedFromSpec map s m.stop rest <;>
        simp [List.append_assoc]

lemma convertLoop_isSome (map : List (Text × MatrixToItem)) :
    ∀ (ms : List RMatch) (delta : Int) (s : Text),
      (∀ m ∈ ms, (MDict.hmGet m.name map).isSome) →
      (convertLoop map ms delta s).isSome := by
  intro ms
  induction ms with
  | nil => intro delta s h; simp [convertLoop]
  | cons m rest ih =>
    intro delta s h
    have hm := h m (List.mem_cons_self m rest)
    cases hget : MDict.hmGet m.name map with
    | none => rw [hget] at hm; simp at hm
    | some item =>
      simp only [convertLoop, hget]
      exact ih _ _ (fun m' hm' => h m' (List.mem_cons_of_mem m hm'))

end ToMatrix

/-- C3: the claim states that `build_regex` is deterministic — equal maps
always yield the same compiled pattern string.  This is false: the
alternation is emitted in the `HashMap`'s iteration order, which Rust
randomizes per map instance, and the two possible iteration orders of the
equal key set `{"a", "b"}` produce different pattern strings. -/
theorem c3_build_regex_depends_on_iteration_order :
    [str "a", str "b"].Perm [str "b", str "a"]
    ∧ buildRegexString [str "a", str "b"] ≠ buildRegexString [str "b", str "a"] := by
  constructor
  · decide
  · decide

/-- C7: given the engine's guarantees on the matches of the compiled
pattern against the original string (left-to-right, non-overlapping, in
bounds, each match's text equal to its span — `chainB`), the replacement
loop of `to_matrix::convert`, which applies each replacement at the
original offsets corrected by the cumulative net length delta of the
earlier replacements, produces exactly the spec's output: every matched
span replaced by `<a href="URL">matchedText</a>` with the gaps unchanged. -/
theorem c7_convert_offset_correction_correct
    (map : List (Text × MatrixToItem)) (s : Text) (ms : List RMatch)
    (h : chainB s 0 ms = true) :
    convert map ms s = renderedFromSpec map s 0 ms := by
  have hmain := convertLoop_rendered map s ms 0 [] h
  simpa [convert] using hmain

/-- Witness for `c7_convert_offset_correction_correct`: the two
different-length matches of `"hello sed[m] voyager[m]"` both convert
correctly (the output of the repository's own `test_mapping_double`). -/
theorem c7_convert_offset_correction_correct_witness :
    chainB (str "hello sed[m] voyager[m]") 0
        [⟨6, 12, str "sed[m]"⟩, ⟨13, 23, str "voyager[m]"⟩] = true
    ∧ convert
        [(str "sed[m]", .user (str "@sed:t2bot.io")),
          (str "voyager[m]", .user (str "@voyager:t2bot.io"))]
        [⟨6, 12, str "sed[m]"⟩, ⟨13, 23, str "voyager[m]"⟩]
        (str "hello sed[m] voyager[m]")
      = some (str "hello <a href=\"https://matrix.to/#/@sed:t2bot.io\">sed[m]</a> <a href=\"https://matrix.to/#/@voyager:t2bot.io\">voyager[m]</a>") := by
  constructor
  · decide
  · rw [c7_convert_offset_correction_correct _ _ _ (by decide)]
    decide

/-- C10: when every name the compiled pattern can match is a key of the
map `to_matrix::convert` is given (as is the case when the `BuiltRegex`
was produced by `build_regex` from the same `Info` map, since the
alternation's alternatives are exactly the map's keys), the internal
`info.map.get(name).unwrap()` always succeeds and `convert` returns
normally; without that precondition — here a regex whose alternative
`tom` is absent from the convert-time map `{bob}` — the lookup fails and
the function panics (`none`). -/
theorem c10_convert_unwrap_safe_iff_same_map
    (map : List (Text × MatrixToItem)) (keys : List Text) (s : Text)
    (ms : List RMatch)
    (hnames : ∀ m ∈ ms, m.name ∈ keys)
    (hkeys : ∀ k ∈ keys, (MDict.hmGet k map).isSome) :
    (convert map ms s).isSome
    ∧ convert [(str "bob", .user (str "@b:d"))] [⟨0, 3, str "tom"⟩]
        (str "tom") = none := by
  constructor
  · exact convertLoop_isSome map ms 0 s (fun m hm => hkeys m.name (hnames m hm))
  · decide

/-- Witness for `c10_convert_unwrap_safe_iff_same_map`: with the regex key
set `{tom}` equal to the map's key set, converting `"tom"` with its match
returns normally. -/
theorem c10_convert_unwrap_safe_iff_same_map_witness :
    (convert [(str "tom", .user (str "@t:d"))] [⟨0, 3, str "tom"⟩]
      (str "tom")).isSome :=
  (c10_convert_unwrap_safe_iff_same_map [(str "tom", .user (str "@t:d"))]
    [str "tom"] (str "tom") [⟨0, 3, str "tom"⟩] (by decide) (by decide)).1

/-- C8 counterexample: the claim states `mxc_to_url` returns the typed
failure `NonMxc` whenever the scheme isn't `mxc` and never fails any other
way (never panics).  False: for a content URI with no scheme at all (e.g.
the relative URI `/x`, a valid `http::Uri`), `scheme_str()` is `None` and
the `.unwrap()` panics instead of returning `NonMxc`. -/
theorem c8_schemeless_uri_panics :
    mxcToUrl (fun _ => none) (str "https://h/")
        { scheme := none, host := none, path := str "/x" } = .panicked
    ∧ mxcToUrl (fun _ => none) (str "https://h/")
        { scheme := none, host := none, path := str "/x" }
      ≠ .err .nonMxc := by
  decide

/-- C8 amended: for every content URI that has a scheme, `mxc_to_url`
never panics and fails only in the three documented ways: `NonMxc` when
the scheme isn't `mxc`; `InvalidMxc` when the host cannot be obtained;
otherwise it assembles
`<homeserverUrl>_matrix/media/r0/download/<server>/<mediaId>` (the path
minus its leading slash) and returns it parsed, or `UriParseError` when
that string does not parse as a URL. -/
theorem c8_mxc_to_url_with_scheme (parse : Text → Option UriM)
    (homeserverUrl : Text) (mxcUri : UriM) (sch : Text)
    (hs : mxcUri.scheme = some sch) :
    mxcToUrl parse homeserverUrl mxcUri ≠ .panicked
    ∧ (sch ≠ str "mxc" →
      mxcToUrl parse homeserverUrl mxcUri = .err .nonMxc)
    ∧ (sch = str "mxc" → mxcUri.host = none →
      mxcToUrl parse homeserverUrl mxcUri = .err .invalidMxc)
    ∧ (∀ serverName, sch = str "mxc" → mxcUri.host = some serverName →
      mxcToUrl parse homeserverUrl mxcUri
        = match parse (homeserverUrl ++ str "_matrix/media/r0/download/"
            ++ serverName ++ str "/" ++ mxcUri.path.drop 1) with
          | none => .err .uriParseError
          | some u => .ok u) := by
  refine ⟨?_, ?_, ?_, ?_⟩
  · simp only [mxcToUrl, hs]
    split_ifs with h
    · simp
    · split
      · simp
      · split <;> simp
  · intro h
    simp [mxcToUrl, hs, h]
  · intro h hh
    simp [mxcToUrl, hs, h, hh]
  · intro serverName h hh
    simp [mxcToUrl, hs, h, hh]

/-- Witness for `c8_mxc_to_url_with_scheme`: an `http`-scheme URI yields
`NonMxc`, and a well-formed `mxc://server/mediaId` URI does not panic. -/
theorem c8_mxc_to_url_with_scheme_witness :
    mxcToUrl (fun _ => none) (str "https://h/")
        { scheme := some (str "http"), host := none, path := str "/x" }
      = .err .nonMxc
    ∧ mxcToUrl (fun t => some ⟨some (str "https"), some (str "h"), t⟩)
        (str "https://h/")
        { scheme := some (str "mxc"), host := some (str "server"),
          path := str "/mediaId" }
      ≠ .panicked := by
  constructor
  · exact (c8_mxc_to_url_with_scheme (fun _ => none) (str "https://h/")
      { scheme := some (str "http"), host := none, path := str "/x" }
      (str "http") rfl).2.1 (by decide)
  · exact (c8_mxc_to_url_with_scheme
      (fun t => some ⟨some (str "https"), some (str "h"), t⟩)
      (str "https://h/")
      { scheme := some (str "mxc"), host := some (str "server"),
        path := str "/mediaId" }
      (str "mxc") rfl).1
